import Mathlib

/-!
Shallow embedding of the portalbase cache layer
(`src/cached_api_client.py`), the filter engine (`src/filter_utils.py`)
and the daily automation's per-announcement deal dispatch
(`src/daily_automation.py`), together with proofs settling the frozen
claims about them.

Python strings are modelled by Lean `String`; Python `str` helpers
(`split`, `strip`, `lower`, `in`, `join`, lexicographic `<=`) are
re-implemented below as structurally recursive functions over the
character list, matching CPython semantics on the inputs the claims
exercise (ASCII case folding, ASCII whitespace).
-/

namespace PortalBase

/-- Python list/scalar ambiguity: the remote API returns either a scalar
string or a list of strings for the same logical field.  `JVal.s` is the
scalar case, `JVal.l` the list case; an absent key is `Option.none` at
the use site. -/
inductive JVal where
  | s (v : String)
  | l (vs : List String)
deriving DecidableEq

/-- Python truthiness of a scalar-or-list value: empty string and empty
list are falsy. -/
def jvalTruthy : JVal → Bool
  | .s v => v != ""
  | .l vs => !vs.isEmpty

/-- Prefix test on character lists (Python `str.startswith`, used to
build the substring test). -/
def chPre : List Char → List Char → Bool
  | [], _ => true
  | _ :: _, [] => false
  | a :: as, b :: bs => a == b && chPre as bs

/-- Contiguous-substring test on character lists: Python `needle in hay`. -/
def chSub (n : List Char) : List Char → Bool
  | [] => chPre n []
  | b :: bs => chPre n (b :: bs) || chSub n bs

/-- Python `needle in hay` on strings (contiguous substring). -/
def strIn (needle hay : String) : Bool :=
  chSub needle.data hay.data

/-- Lexicographic `<=` on character lists by code point, as Python
compares strings. -/
def chLe : List Char → List Char → Bool
  | [], _ => true
  | _ :: _, [] => false
  | a :: as, b :: bs => if a < b then true else if b < a then false else chLe as bs

/-- Python string `<=` (lexicographic by code point). -/
def strLe (a b : String) : Bool :=
  chLe a.data b.data

/-- Split a character list on a separator character, Python
`str.split(sep)` semantics (keeps empty pieces, `"".split` gives one
empty piece). -/
def splitChar (c : Char) : List Char → List (List Char)
  | [] => [[]]
  | x :: xs =>
    let r := splitChar c xs
    if x == c then [] :: r
    else
      match r with
      | [] => [[x]]
      | h :: t => (x :: h) :: t

/-- Python `s.split(c)` for a one-character separator. -/
def pySplit (c : Char) (s : String) : List String :=
  (splitChar c s.data).map (fun l => String.mk l)

/-- Python `str.strip()` (both ends, whitespace). -/
def trimStr (s : String) : String :=
  String.mk (((s.data.dropWhile Char.isWhitespace).reverse.dropWhile Char.isWhitespace).reverse)

/-- Python `str.lower()` (ASCII case folding, as the data in the claims
only exercises ASCII). -/
def lowerStr (s : String) : String :=
  String.mk (s.data.map Char.toLower)

/-- Python `' '.join(xs)`. -/
def joinSpace : List String → String
  | [] => ""
  | [x] => x
  | x :: xs => x ++ " " ++ joinSpace xs

/-- Python `s.endswith(suffix)`; models the SQL pattern
`LIKE '%suffix'`. -/
def strEndsWith (s suffix : String) : Bool :=
  chPre suffix.data.reverse s.data.reverse

/-- Parse a digit string (Python `int(s)` restricted to the nonnegative
decimal strings the year fields hold; `none` on any non-digit). -/
def parseNatAux : List Char → Nat → Option Nat
  | [], acc => some acc
  | c :: cs, acc =>
    if c.isDigit then parseNatAux cs (acc * 10 + (c.toNat - 48)) else none

/-- Python `int(s)` for year strings; the source raises on malformed
input, modelled totally with a `0` default at the call sites the claims
never exercise malformed. -/
def strToNat (s : String) : Option Nat :=
  if s.data.isEmpty then none else parseNatAux s.data 0

/-- A procurement record as the Python dicts flowing through the system:
contracts and announcements share one dynamic shape, every key
optional.  Fields mirror the keys read by `cached_api_client.py`,
`filter_utils.py` and `daily_automation.py`. -/
structure Rec where
  idContrato : Option String := none
  dataPublicacao : Option String := none
  dataCelebracaoContrato : Option String := none
  ano : Option String := none
  nAnuncio : Option String := none
  objectoContrato : Option String := none
  descContrato : Option String := none
  precoContratual : Option String := none
  tipoContrato : Option JVal := none
  adjudicante : Option JVal := none
  adjudicatarios : Option JVal := none
  cpv : Option JVal := none
  CPVs : Option JVal := none
  descricaoAnuncio : Option String := none
  localExecucao : Option JVal := none
  tipoAnuncio : Option String := none
  nifEntidade : Option String := none
deriving DecidableEq

/-- The filter configuration dict read by
`filter_utils.filter_contracts`. -/
structure Filters where
  keyword : Option String := none
  fornecedor_nif : Option String := none
  location : Option JVal := none
  cpv_codes : Option (List String) := none
deriving DecidableEq

/-- `src/filter_utils.py` line 44/47/57: the guarded list access
`c.get(k, []) if isinstance(c.get(k), list) else []` — a scalar or
absent value yields the empty list. -/
def asList : Option JVal → List String
  | some (.l xs) => xs
  | _ => []

/-- `src/filter_utils.py` line 37: the keyword list
`[kw.strip().lower() for kw in keyword.split(',') if kw.strip()]`. -/
def keywordList (s : String) : List String :=
  (pySplit ',' s).filterMap (fun kw =>
    let t := trimStr kw
    if t == "" then none else some (lowerStr t))

/-- `src/filter_utils.py` lines 40-48: the per-record keyword
disjunction. -/
def keywordMatch (kws : List String) (c : Rec) : Bool :=
  kws.any (fun kw =>
    strIn kw (lowerStr (c.objectoContrato.getD "")) ||
    strIn kw (lowerStr (c.descContrato.getD "")) ||
    strIn kw (lowerStr (joinSpace (asList c.cpv))) ||
    strIn kw (lowerStr (c.descricaoAnuncio.getD "")) ||
    strIn kw (lowerStr (joinSpace (asList c.CPVs))))

/-- `src/filter_utils.py` lines 63-72: the location stage predicate;
records with a falsy `localExecucao` pass, a truthy non-list value fails
the `isinstance` guard. -/
def locationKeep (locList : List String) (c : Rec) : Bool :=
  match c.localExecucao with
  | none => true
  | some jv =>
    if jvalTruthy jv then
      match jv with
      | .l xs => xs.any (fun loc => locList.any (fun fl => strIn (lowerStr fl) (lowerStr loc)))
      | .s _ => false
    else true

/-- Python iteration `for item in v` over a scalar-or-list value: a list
yields its elements, a string yields its characters as one-character
strings (`src/filter_utils.py` lines 82-90 iterate `c.get('cpv', [])`
unguarded). -/
def jvalIter : Option JVal → List String
  | none => []
  | some (.l xs) => xs
  | some (.s v) => v.data.map (fun ch => String.mk [ch])

/-- `src/filter_utils.py` lines 78-91: the CPV-codes stage predicate. -/
def cpvKeep (cpvList : List String) (c : Rec) : Bool :=
  ((match c.cpv with | none => false | some jv => jvalTruthy jv) &&
    (jvalIter c.cpv).any (fun item =>
      cpvList.any (fun cf => strIn ((pySplit '-' cf).getD 0 "") item))) ||
  ((match c.CPVs with | none => false | some jv => jvalTruthy jv) &&
    (jvalIter c.CPVs).any (fun item =>
      cpvList.any (fun cf => strIn ((pySplit '-' cf).getD 0 "") item)))

/-- `src/filter_utils.py` `filter_contracts`: the four filter stages
applied in source order; a falsy filter value skips its stage. -/
def filter_contracts (contracts : List Rec) (filters : Filters) : List Rec :=
  let filtered := contracts
  let filtered :=
    match filters.keyword with
    | some s =>
      if s == "" then filtered
      else
        let kws := keywordList s
        filtered.filter (fun c => keywordMatch kws c)
    | none => filtered
  let filtered :=
    match filters.fornecedor_nif with
    | some s =>
      if s == "" then filtered
      else
        let nif := trimStr s
        filtered.filter (fun c => strIn nif (joinSpace (asList c.adjudicatarios)))
    | none => filtered
  let filtered :=
    match filters.location with
    | some lv =>
      if jvalTruthy lv then
        let locList := match lv with | .l xs => xs | .s v => [v]
        filtered.filter (fun c => locationKeep locList c)
      else filtered
    | none => filtered
  let filtered :=
    match filters.cpv_codes with
    | some cpvList =>
      if cpvList.isEmpty then filtered
      else filtered.filter (fun c => cpvKeep cpvList c)
    | none => filtered
  filtered

/-- A `datetime.now()` value, abstracted to what the cache logic reads:
the local calendar date (`.date()`, as a linear day count) and the time
within the day.  Two timestamps on the same calendar day share `day`. -/
structure Timestamp where
  day : Nat
  secs : Nat
deriving DecidableEq

/-- A row of the `contracts` table (`src/cached_api_client.py` lines
38-56): the normalized columns, the `raw_data` blob and the
`last_updated` timestamp.  `raw_data` models `json.dumps(contract)`;
since `json.loads` inverts `json.dumps` on the JSON-shaped records, the
blob column is represented by the record value itself. -/
structure ContractRow where
  id_contrato : Option String
  data_publicacao : Option String
  data_celebracao : Option String
  ano : Option String
  n_anuncio : Option String
  objeto_contrato : Option String
  preco_contratual : Option String
  tipo_contrato : JVal
  adjudicante : JVal
  adjudicatarios : JVal
  cpv : JVal
  local_execucao : JVal
  raw_data : Rec
  last_updated : Timestamp
deriving DecidableEq

/-- A row of the `announcements` table (`src/cached_api_client.py`
lines 59-70). -/
structure AnnouncementRow where
  n_anuncio : Option String
  data_publicacao : Option String
  ano : Option String
  tipo_anuncio : Option String
  nif_entidade : Option String
  raw_data : Rec
  last_updated : Timestamp
deriving DecidableEq

/-- A row of the `cache_metadata` table (`src/cached_api_client.py`
lines 73-79). -/
structure MetaRow where
  year : String
  last_fetched : Timestamp
  record_count : Nat
deriving DecidableEq

/-- A row of the `saved_searches` table (`src/cached_api_client.py`
lines 82-90); the autoincrement id is immaterial to the claims. -/
structure SavedSearch where
  name : String
  filters : Filters
  created_at : Timestamp
  last_used : Option Timestamp
deriving DecidableEq

/-- The SQLite database of `CachedBaseAPIClient`. -/
structure CacheDB where
  contracts : List ContractRow
  announcements : List AnnouncementRow
  cache_metadata : List MetaRow
  saved_searches : List SavedSearch
deriving DecidableEq

/-- The freshly initialized database (`_init_database`). -/
def emptyDB : CacheDB := ⟨[], [], [], []⟩

/-- The row `_store_contracts` builds from an ingested record
(`src/cached_api_client.py` lines 176-197): `contract.get(...)` for the
plain columns, `json.dumps(contract.get(k, []))` for the list-shaped
ones, the full record as `raw_data`, `datetime.now()` as
`last_updated`. -/
def mkContractRow (c : Rec) (now : Timestamp) : ContractRow where
  id_contrato := c.idContrato
  data_publicacao := c.dataPublicacao
  data_celebracao := c.dataCelebracaoContrato
  ano := c.ano
  n_anuncio := c.nAnuncio
  objeto_contrato := c.objectoContrato
  preco_contratual := c.precoContratual
  tipo_contrato := c.tipoContrato.getD (.l [])
  adjudicante := c.adjudicante.getD (.l [])
  adjudicatarios := c.adjudicatarios.getD (.l [])
  cpv := c.cpv.getD (.l [])
  local_execucao := c.localExecucao.getD (.l [])
  raw_data := c
  last_updated := now

/-- The row `_store_announcements` builds (`src/cached_api_client.py`
lines 214-227). -/
def mkAnnouncementRow (a : Rec) (now : Timestamp) : AnnouncementRow where
  n_anuncio := a.nAnuncio
  data_publicacao := a.dataPublicacao
  ano := a.ano
  tipo_anuncio := a.tipoAnuncio
  nif_entidade := a.nifEntidade
  raw_data := a
  last_updated := now

/-- SQLite `INSERT OR REPLACE` keyed by a nullable `TEXT PRIMARY KEY`
column: a matching key replaces the row; a `NULL` key never conflicts
(SQLite treats `NULL`s as distinct in a unique index) and inserts a
fresh row. -/
def upsertBy {ρ : Type} (key : ρ → Option String) (row : ρ) (tbl : List ρ) : List ρ :=
  match key row with
  | none => tbl ++ [row]
  | some k =>
    if tbl.any (fun r => key r == some k) then
      tbl.map (fun r => if key r == some k then row else r)
    else tbl ++ [row]

/-- `INSERT OR REPLACE` into `contracts`, keyed by `id_contrato`. -/
def upsertContractRow (row : ContractRow) (tbl : List ContractRow) : List ContractRow :=
  upsertBy (fun r => r.id_contrato) row tbl

/-- `INSERT OR REPLACE` into `announcements`, keyed by `n_anuncio`. -/
def upsertAnnouncementRow (row : AnnouncementRow) (tbl : List AnnouncementRow) : List AnnouncementRow :=
  upsertBy (fun r => r.n_anuncio) row tbl

/-- SQLite `INSERT OR REPLACE` into `cache_metadata` keyed by `year`. -/
def upsertMetaRow (row : MetaRow) (tbl : List MetaRow) : List MetaRow :=
  if tbl.any (fun r => r.year == row.year) then
    tbl.map (fun r => if r.year == row.year then row else r)
  else tbl ++ [row]

/-- `SELECT last_fetched FROM cache_metadata WHERE year = ?` (first
matching row; the primary key keeps at most one). -/
def metadata_for (db : CacheDB) (year : String) : Option MetaRow :=
  db.cache_metadata.find? (fun m => m.year == year)

/-- `CachedBaseAPIClient._should_refresh_cache` (lines 106-136): `true`
when no metadata row exists for the year, else when the stored
`last_fetched` calendar date is strictly before today's. -/
def should_refresh_cache (db : CacheDB) (year : String) (now : Timestamp) : Bool :=
  match metadata_for db year with
  | none => true
  | some m => decide (m.last_fetched.day < now.day)

/-- `CachedBaseAPIClient._store_contracts` (lines 170-206): upsert each
record, then upsert the `cache_metadata` row for the year with the
current timestamp and the contract count. -/
def store_contracts (cs : List Rec) (year : String) (now : Timestamp) (db : CacheDB) : CacheDB :=
  let db1 := { db with contracts := cs.foldl (fun t c => upsertContractRow (mkContractRow c now) t) db.contracts }
  { db1 with cache_metadata := upsertMetaRow ⟨year, now, cs.length⟩ db1.cache_metadata }

/-- `CachedBaseAPIClient._store_announcements` (lines 208-230): upsert
each record; writes no metadata. -/
def store_announcements (ans : List Rec) (now : Timestamp) (db : CacheDB) : CacheDB :=
  { db with announcements := ans.foldl (fun t a => upsertAnnouncementRow (mkAnnouncementRow a now) t) db.announcements }

/-- Result of `client.get_announcement_info(ano=year)`: a list, a single
record, or a falsy value (`src/cached_api_client.py` lines 162-164
normalize the latter two). -/
inductive AnnResult where
  | list (xs : List Rec)
  | single (a : Rec)
  | nothing
deriving DecidableEq

/-- Lines 163-164: `[announcements] if announcements else []` after the
`isinstance(list)` check. -/
def normalizeAnns : AnnResult → List Rec
  | .list xs => xs
  | .single a => [a]
  | .nothing => []

/-- `CachedBaseAPIClient.sync_year` (lines 138-168).  The two remote
fetches are passed in as `Except` results (`.error` models the raised
exception the `try/except` blocks catch and log).  A failed contracts
fetch skips `_store_contracts` (and hence the metadata write); a failed
announcements fetch skips `_store_announcements`; each failure is
caught independently. -/
def sync_year (cFetch : Except String (List Rec)) (aFetch : Except String AnnResult)
    (year : String) (force : Bool) (now : Timestamp) (db : CacheDB) : CacheDB :=
  if !force && !should_refresh_cache db year now then db
  else
    let db1 :=
      match cFetch with
      | .ok cs => store_contracts cs year now db
      | .error _ => db
    match aFetch with
    | .ok ar => store_announcements (normalizeAnns ar) now db1
    | .error _ => db1

/-- `SELECT raw_data FROM contracts WHERE data_publicacao = ?` followed
by `json.loads` on each blob. -/
def query_contracts_by_date (date_str : String) (db : CacheDB) : List Rec :=
  (db.contracts.filter (fun r => r.data_publicacao == some date_str)).map (fun r => r.raw_data)

/-- `CachedBaseAPIClient.get_contracts_by_date` (lines 232-257): derive
the year from the third `/`-segment, sync it if stale, then select the
blobs whose stored publication date equals `date_str` exactly. -/
def get_contracts_by_date (cFetch : Except String (List Rec)) (aFetch : Except String AnnResult)
    (date_str : String) (now : Timestamp) (db : CacheDB) : List Rec :=
  let year := (pySplit '/' date_str).getD 2 ""
  let db1 := if should_refresh_cache db year now then sync_year cFetch aFetch year false now db else db
  query_contracts_by_date date_str db1

/-- `convert_date` inside `get_contracts_by_date_range` (lines 313-316):
rewrite `DD/MM/YYYY` to `YYYY-MM-DD` by segment swap (the source
indexes `parts[2]`/`parts[1]`/`parts[0]` and raises on malformed input,
never exercised by the claims; modelled totally with empty defaults). -/
def convert_date (date_str : String) : String :=
  let parts := pySplit '/' date_str
  parts.getD 2 "" ++ "-" ++ parts.getD 1 "" ++ "-" ++ parts.getD 0 ""

/-- `CachedBaseAPIClient.get_contracts_by_date_range` (lines 286-337):
sync every year in `[int(startYear), int(endYear)]` that is stale (the
per-year fetch results are supplied by the oracles), then scan the rows
matching `data_publicacao LIKE '%/{start_year}'` and keep those whose
rewritten date lies within the rewritten inclusive bounds. -/
def get_contracts_by_date_range (cFetch : Nat → Except String (List Rec))
    (aFetch : Nat → Except String AnnResult)
    (start_date end_date : String) (now : Timestamp) (db : CacheDB) : List Rec :=
  let start_year := (pySplit '/' start_date).getD 2 ""
  let end_year := (pySplit '/' end_date).getD 2 ""
  let sy := (strToNat start_year).getD 0
  let ey := (strToNat end_year).getD 0
  let years := List.range' sy (ey + 1 - sy)
  let db1 := years.foldl (fun d y =>
    if should_refresh_cache d (toString y) now then
      sync_year (cFetch y) (aFetch y) (toString y) false now d
    else d) db
  let start_comparable := convert_date start_date
  let end_comparable := convert_date end_date
  ((db1.contracts.filter (fun r =>
      match r.data_publicacao with
      | some d =>
        strEndsWith d ("/" ++ start_year) && d != "" &&
        strLe start_comparable (convert_date d) && strLe (convert_date d) end_comparable
      | none => false)).map (fun r => r.raw_data))

/-- `CachedBaseAPIClient.save_search` (lines 368-393): a plain `INSERT`
into `saved_searches` whose `UNIQUE` name raises `IntegrityError` on a
duplicate, caught and reported as `False` with the table untouched. -/
def save_search (name : String) (filters : Filters) (now : Timestamp) (db : CacheDB) :
    Bool × CacheDB :=
  if db.saved_searches.any (fun s => s.name == name) then (false, db)
  else (true, { db with saved_searches := db.saved_searches ++ [⟨name, filters, now, none⟩] })

/-- `CachedBaseAPIClient.delete_search` (lines 457-479): `DELETE WHERE
name = ?`, returning `cursor.rowcount > 0`. -/
def delete_search (name : String) (db : CacheDB) : Bool × CacheDB :=
  let remaining := db.saved_searches.filter (fun s => s.name != name)
  (decide (remaining.length < db.saved_searches.length), { db with saved_searches := remaining })

/-- A row of the processed-announcement ledger (spec §3): announcement
number, nullable HubSpot deal id, triggering saved-search name. -/
structure LedgerEntry where
  n_anuncio : String
  hubspot_deal_id : Option String
  saved_search_name : Option String
deriving DecidableEq

/-- Modelled from the spec: `CachedBaseAPIClient.is_announcement_processed`
is called by `daily_automation.main` but its definition is not under
`src/`; per spec §3/§4.4, presence of a ledger entry for the id means
"already processed". -/
def is_announcement_processed (ledger : List LedgerEntry) (n : String) : Bool :=
  ledger.any (fun e => e.n_anuncio == n)

/-- Modelled from the spec: `CachedBaseAPIClient.mark_announcement_processed`
is called by `daily_automation.main` but its definition is not under
`src/`; per spec §3/§4.4 it records the announcement number with the
(nullable) deal id and the triggering saved-search name, and entries
are never deleted. -/
def mark_announcement_processed (ledger : List LedgerEntry) (n : String)
    (dealId : Option String) (searchName : Option String) : List LedgerEntry :=
  ledger ++ [⟨n, dealId, searchName⟩]

/-- State threaded through the automation's deal-dispatch loop: the
persistent ledger, the log of announcement numbers for which
`create_deal_from_announcement` was actually invoked, and the run
counters. -/
structure AutoState where
  ledger : List LedgerEntry
  createCalls : List String
  deals_created : Nat
  deals_failed : Nat
deriving DecidableEq

/-- One iteration of the deal-creation loop in `daily_automation.main`
(lines 202-244).  `checkDeal` models `check_deal_exists` (a previously
created deal's id, or `none`); `createDeal` models
`create_deal_from_announcement` (`some id` when the result is truthy
with a truthy id, `none` on failure).  Every invocation of `createDeal`
is logged in `createCalls`. -/
def process_announcement (checkDeal : String → Option String) (createDeal : Rec → Option String)
    (searchName : String) (s : AutoState) (a : Rec) : AutoState :=
  let n := a.nAnuncio.getD "unknown"
  if is_announcement_processed s.ledger n then s
  else
    match checkDeal n with
    | some existingId =>
      { s with ledger := mark_announcement_processed s.ledger n (some existingId) (some searchName) }
    | none =>
      match createDeal a with
      | some dealId =>
        { s with
          ledger := mark_announcement_processed s.ledger n (some dealId) (some searchName)
          createCalls := s.createCalls ++ [n]
          deals_created := s.deals_created + 1 }
      | none =>
        { s with
          ledger := mark_announcement_processed s.ledger n none (some searchName)
          createCalls := s.createCalls ++ [n]
          deals_failed := s.deals_failed + 1 }

/-- One automation run's deal-dispatch loop over the filtered
announcements (lines 202-244). -/
def run_automation (checkDeal : String → Option String) (createDeal : Rec → Option String)
    (searchName : String) (items : List Rec) (s : AutoState) : AutoState :=
  items.foldl (process_announcement checkDeal createDeal searchName) s

/-- A contract/announcement row with its `last_updated` column zeroed:
the "content" of the row, i.e. every stored column except the write
timestamp. -/
def contractContent (r : ContractRow) : ContractRow :=
  { r with last_updated := ⟨0, 0⟩ }

/-- Announcement-row analogue of `contractContent`. -/
def announcementContent (r : AnnouncementRow) : AnnouncementRow :=
  { r with last_updated := ⟨0, 0⟩ }

/-- Concrete timestamps for the closed instances below (day 800 early,
day 800 late in the same day, day 801). -/
def tsEarly : Timestamp := ⟨800, 10⟩

def tsLate : Timestamp := ⟨800, 86000⟩

def tsNextDay : Timestamp := ⟨801, 10⟩

/-- A 2024 contract as the remote API returns it. -/
def contract2024 : Rec :=
  { idContrato := some "C-2024", dataPublicacao := some "30/12/2024", ano := some "2024" }

/-- A 2025 contract, published inside the year-boundary range
`28/12/2024`-`02/01/2025`. -/
def contract2025 : Rec :=
  { idContrato := some "C-2025", dataPublicacao := some "01/01/2025", ano := some "2025" }

/-- Per-year contract fetch oracle for the range-query instance: 2024
yields `contract2024`, 2025 yields `contract2025`. -/
def rangeContractFetch : Nat → Except String (List Rec) := fun y =>
  if y == 2024 then .ok [contract2024]
  else if y == 2025 then .ok [contract2025]
  else .ok []

/-- Per-year announcement fetch oracle for the range-query instance. -/
def rangeAnnFetch : Nat → Except String AnnResult := fun _ => .ok .nothing

/-- An announcement-shaped record: it has no `adjudicatarios` key. -/
def annOnlyRecord : Rec :=
  { nAnuncio := some "1234/2025", descricaoAnuncio := some "Aquisicao de equipamento" }

/-- A concrete announcement for the automation instances. -/
def wAnn : Rec :=
  { nAnuncio := some "A-1", dataPublicacao := some "01/01/2025", descricaoAnuncio := some "obra" }

/-- Deal-lookup oracle for the automation instances: no deal exists
yet. -/
def wCheckDeal : String → Option String := fun _ => none

/-- Deal-creation oracle for the automation instances: creation
succeeds with id `D-1`. -/
def wCreateDeal : Rec → Option String := fun _ => some "D-1"

/-- An automation state whose ledger already holds `A-1`. -/
def wProcessedState : AutoState := ⟨[⟨"A-1", none, some "S"⟩], [], 0, 0⟩

/-! ## Helper lemmas about the keyed upsert -/

lemma upsertBy_absent {ρ : Type} (key : ρ → Option String) (row : ρ) (tbl : List ρ)
    (h : ∀ r ∈ tbl, key r ≠ key row) : upsertBy key row tbl = tbl ++ [row] := by
  unfold upsertBy
  cases hk : key row with
  | none => rfl
  | some k =>
    have hany : tbl.any (fun r => key r == some k) = false := by
      simp only [List.any_eq_false]
      intro r hr
      have hne := h r hr
      rw [hk] at hne
      simpa using hne
    simp [hany]

lemma upsertBy_present {ρ : Type} (key : ρ → Option String) (row : ρ) (tbl : List ρ)
    (k : String) (hk : key row = some k)
    (hany : tbl.any (fun r => key r == some k) = true) :
    upsertBy key row tbl = tbl.map (fun r => if key r == some k then row else r) := by
  unfold upsertBy
  cases hrow : key row with
  | none => rw [hrow] at hk; exact absurd hk (by simp)
  | some k2 =>
    rw [hrow] at hk
    have hk2 : k2 = k := Option.some.inj hk
    subst hk2
    simp [hany]

lemma mapReplace_absent {ρ : Type} (key : ρ → Option String) (k : String) (row : ρ)
    (tbl : List ρ) (h : ∀ r ∈ tbl, key r ≠ some k) :
    tbl.map (fun r => if key r == some k then row else r) = tbl := by
  induction tbl with
  | nil => rfl
  | cons t ts ih =>
    have hht : (key t == some k) = false := by
      simpa using h t (List.mem_cons_self t ts)
    simp only [List.map_cons, hht, if_neg]
    rw [ih (fun r hr => h r (List.mem_cons_of_mem t hr))]
    simp [hht]

lemma foldBuild {σ ρ : Type} (key : ρ → Option String) (mk : σ → ρ) :
    ∀ (xs : List σ) (A : List ρ),
      (xs.map (fun x => key (mk x))).Nodup →
      (∀ r ∈ A, ∀ x ∈ xs, key r ≠ key (mk x)) →
      xs.foldl (fun tb x => upsertBy key (mk x) tb) A = A ++ xs.map mk := by
  intro xs
  induction xs with
  | nil => intro A _ _; simp
  | cons x xs ih =>
    intro A hnd hdis
    have h1 : upsertBy key (mk x) A = A ++ [mk x] :=
      upsertBy_absent key (mk x) A (fun r hr => hdis r hr x (List.mem_cons_self x xs))
    have hnd' : (xs.map (fun x => key (mk x))).Nodup := (List.nodup_cons.mp hnd).2
    have hhead : key (mk x) ∉ xs.map (fun x => key (mk x)) := (List.nodup_cons.mp hnd).1
    have hdis' : ∀ r ∈ A ++ [mk x], ∀ y ∈ xs, key r ≠ key (mk y) := by
      intro r hr y hy
      rcases List.mem_append.mp hr with hA | hx
      · exact hdis r hA y (List.mem_cons_of_mem x hy)
      · have hrx : r = mk x := by simpa using hx
        subst hrx
        intro heq
        exact hhead (heq ▸ List.mem_map_of_mem (fun x => key (mk x)) hy)
    simp only [List.foldl_cons, h1]
    rw [ih (A ++ [mk x]) hnd' hdis']
    simp

lemma foldReplay {σ ρ : Type} (key : ρ → Option String) (mk1 mk2 : σ → ρ)
    (hkey : ∀ x, key (mk2 x) = key (mk1 x)) :
    ∀ (xs : List σ) (A : List ρ),
      (∀ x ∈ xs, (key (mk1 x)).isSome) →
      (xs.map (fun x => key (mk1 x))).Nodup →
      (∀ r ∈ A, ∀ x ∈ xs, key r ≠ key (mk1 x)) →
      xs.foldl (fun tb x => upsertBy key (mk2 x) tb) (A ++ xs.map mk1) = A ++ xs.map mk2 := by
  intro xs
  induction xs with
  | nil => intro A _ _ _; simp
  | cons x xs ih =>
    intro A hsome hnd hdis
    obtain ⟨k, hk⟩ := Option.isSome_iff_exists.mp (hsome x (List.mem_cons_self x xs))
    have hnd' : (xs.map (fun x => key (mk1 x))).Nodup := (List.nodup_cons.mp hnd).2
    have hhead : key (mk1 x) ∉ xs.map (fun x => key (mk1 x)) := (List.nodup_cons.mp hnd).1
    have htailne : ∀ y ∈ xs, key (mk1 y) ≠ some k := by
      intro y hy heq
      exact hhead (by
        rw [hk, ← heq]
        exact List.mem_map_of_mem (fun x => key (mk1 x)) hy)
    have hany : (A ++ mk1 x :: xs.map mk1).any (fun r => key r == some k) = true := by
      refine List.any_eq_true.mpr ⟨mk1 x, ?_, by simp [hk]⟩
      exact List.mem_append_right _ (List.mem_cons_self _ _)
    have hstep :
        upsertBy key (mk2 x) (A ++ mk1 x :: xs.map mk1) =
          A ++ mk2 x :: xs.map mk1 := by
      rw [upsertBy_present key (mk2 x) _ k ((hkey x).trans hk) hany]
      simp only [List.map_append, List.map_cons]
      rw [mapReplace_absent key k (mk2 x) A (by
        intro r hr heq
        exact hdis r hr x (List.mem_cons_self x xs) (heq.trans hk.symm))]
      rw [mapReplace_absent key k (mk2 x) (xs.map mk1) (by
        intro r hr heq
        obtain ⟨y, hy, rfl⟩ := List.mem_map.mp hr
        exact htailne y hy heq)]
      simp [hk]
    simp only [List.foldl_cons, List.map_cons]
    rw [show A ++ mk1 x :: xs.map mk1 = A ++ (mk1 x :: xs.map mk1) from rfl] at *
    rw [hstep]
    have hdis' : ∀ r ∈ A ++ [mk2 x], ∀ y ∈ xs, key r ≠ key (mk1 y) := by
      intro r hr y hy
      rcases List.mem_append.mp hr with hA | hx
      · exact hdis r hA y (List.mem_cons_of_mem x hy)
      · have hrx : r = mk2 x := by simpa using hx
        subst hrx
        rw [hkey x, hk]
        exact fun heq => htailne y hy heq.symm
    have hsome' : ∀ y ∈ xs, (key (mk1 y)).isSome :=
      fun y hy => hsome y (List.mem_cons_of_mem x hy)
    have := ih (A ++ [mk2 x]) hsome' hnd' hdis'
    rw [show A ++ mk2 x :: xs.map mk1 = (A ++ [mk2 x]) ++ xs.map mk1 by simp]
    rw [this]
    simp

lemma upsertMetaRow_eq_map (row : MetaRow) (tbl : List MetaRow)
    (h : tbl.any (fun r => r.year == row.year) = true) :
    upsertMetaRow row tbl = tbl.map (fun r => if r.year == row.year then row else r) := by
  unfold upsertMetaRow
  rw [if_pos h]

lemma upsertMetaRow_eq_append (row : MetaRow) (tbl : List MetaRow)
    (h : tbl.any (fun r => r.year == row.year) = false) :
    upsertMetaRow row tbl = tbl ++ [row] := by
  unfold upsertMetaRow
  rw [if_neg (by simp [h])]

lemma find_upsertMetaRow (row : MetaRow) (tbl : List MetaRow) :
    List.find? (fun m => m.year == row.year) (upsertMetaRow row tbl) = some row := by
  induction tbl with
  | nil => simp [upsertMetaRow]
  | cons t ts ih =>
    by_cases ht : (t.year == row.year) = true
    · rw [upsertMetaRow_eq_map row (t :: ts) (by simp [ht])]
      simp only [List.map_cons]
      rw [if_pos ht]
      exact List.find?_cons_of_pos _ (by simp)
    · rw [Bool.not_eq_true] at ht
      cases hts : ts.any (fun r => r.year == row.year) with
      | true =>
        rw [upsertMetaRow_eq_map row (t :: ts) (by simp [hts])]
        simp only [List.map_cons]
        rw [if_neg (by simp [ht])]
        rw [List.find?_cons_of_neg _ (by simp [ht])]
        rw [← upsertMetaRow_eq_map row ts hts]
        exact ih
      | false =>
        rw [upsertMetaRow_eq_append row (t :: ts) (by simp [ht, hts])]
        rw [List.cons_append]
        rw [List.find?_cons_of_neg _ (by simp [ht])]
        rw [← upsertMetaRow_eq_append row ts hts]
        exact ih

/-! ## C1: the range query only scans start-year rows -/

/-- C1 (failing-input evaluation): querying the year-boundary range
`28/12/2024`-`02/01/2025` over a cache whose own sync loop ingested a
2024 contract and an in-range 2025 contract returns only the 2024 one;
the 2025 contract's rewritten date lies inside the rewritten bounds,
and the same stored data is returned once the start year matches — the
`LIKE '%/2024'` prefilter drops every non-start-year row. -/
theorem c1_range_query_scans_only_start_year :
    get_contracts_by_date_range rangeContractFetch rangeAnnFetch
      "28/12/2024" "02/01/2025" tsEarly emptyDB = [contract2024] ∧
    strLe (convert_date "28/12/2024") (convert_date "01/01/2025") = true ∧
    strLe (convert_date "01/01/2025") (convert_date "02/01/2025") = true ∧
    get_contracts_by_date_range rangeContractFetch rangeAnnFetch
      "01/01/2025" "02/01/2025" tsEarly emptyDB = [contract2025] := by decide

/-! ## C3: sync metadata is coupled to the contracts fetch alone -/

/-- C3 (counterexample): with the contracts fetch succeeding and the
announcements fetch failing, `sync_year` writes the very same metadata
row as a fully successful sync (and the year stops being stale), so the
metadata does not reflect the announcements failure; conversely a
failed contracts fetch with successful announcements writes no metadata
at all — refuting the claim that the metadata row reflects whichever
fetches succeeded. -/
theorem c3_counterexample :
    metadata_for (sync_year (.ok [contract2024]) (.error "boom") "2024" true tsEarly emptyDB) "2024" =
      metadata_for (sync_year (.ok [contract2024]) (.ok (.list [wAnn])) "2024" true tsEarly emptyDB) "2024" ∧
    metadata_for (sync_year (.ok [contract2024]) (.error "boom") "2024" true tsEarly emptyDB) "2024" =
      some ⟨"2024", tsEarly, 1⟩ ∧
    should_refresh_cache (sync_year (.ok [contract2024]) (.error "boom") "2024" true tsEarly emptyDB)
      "2024" tsLate = false ∧
    metadata_for (sync_year (.error "err") (.ok (.list [wAnn])) "2024" true tsEarly emptyDB) "2024" =
      none := by decide

/-- C3 (amended): in `sync_year` the two fetch failures are caught
independently — neither aborts the other's store — but the metadata
write is tied to the contracts fetch alone: it is written (with the
contract count) exactly when the contracts fetch succeeds, regardless
of the announcements outcome; a failed contracts fetch writes no
metadata even when announcements succeed; a fully failed sync leaves
the database unchanged. -/
theorem c3_metadata_depends_only_on_contracts_fetch
    (cs : List Rec) (ar : AnnResult) (e1 e2 year : String)
    (now : Timestamp) (db : CacheDB) :
    metadata_for (sync_year (.error e1) (.ok ar) year true now db) year = metadata_for db year ∧
    metadata_for (sync_year (.ok cs) (.error e2) year true now db) year =
      some ⟨year, now, cs.length⟩ ∧
    metadata_for (sync_year (.ok cs) (.error e2) year true now db) year =
      metadata_for (sync_year (.ok cs) (.ok ar) year true now db) year ∧
    sync_year (.error e1) (.error e2) year true now db = db ∧
    (sync_year (.error e1) (.ok ar) year true now db).announcements =
      (sync_year (.ok cs) (.ok ar) year true now db).announcements ∧
    (sync_year (.ok cs) (.error e2) year true now db).contracts =
      (sync_year (.ok cs) (.ok ar) year true now db).contracts := by
  have hmeta : metadata_for (store_contracts cs year now db) year =
      some ⟨year, now, cs.length⟩ := by
    simpa [metadata_for, store_contracts] using
      find_upsertMetaRow ⟨year, now, cs.length⟩ (db.cache_metadata)
  refine ⟨?_, ?_, ?_, ?_, ?_, ?_⟩
  · simp [sync_year, store_announcements, metadata_for]
  · simpa [sync_year] using hmeta
  · simp [sync_year, store_announcements, metadata_for]
  · simp [sync_year]
  · simp [sync_year, store_announcements, store_contracts]
  · simp [sync_year, store_announcements, store_contracts]

/-! ## C5: the supplier filter and records without a contractor field -/

lemma strIn_empty (t : String) (h : t ≠ "") : strIn t "" = false := by
  have hd : t.data ≠ [] := by
    intro h0
    apply h
    cases t with
    | mk l =>
      simp only [String.data] at h0
      simp [h0]
  unfold strIn
  cases ht : t.data with
  | nil => exact absurd ht hd
  | cons c cs => rfl

/-- C5 (counterexample): with the supplier filter set to a concrete
NIF, an announcement-shaped record with no `adjudicatarios` field is
excluded by `filter_contracts`, not passed through unfiltered. -/
theorem c5_counterexample :
    filter_contracts [annOnlyRecord] { fornecedor_nif := some "503069841" } = [] ∧
    annOnlyRecord.adjudicatarios = none := by decide

/-- C5 (amended): when the supplier filter is a non-empty string whose
stripped form is non-empty, a record is kept by `filter_contracts` iff
its `adjudicatarios` field is a list and the stripped filter string
occurs as a case-sensitive substring of the space-joined list; records
whose field is absent or scalar are excluded (the join is the empty
string). -/
theorem c5_supplier_filter_excludes_missing_field (rs : List Rec) (s : String)
    (hne : s ≠ "") (htr : trimStr s ≠ "") :
    filter_contracts rs { fornecedor_nif := some s } =
      rs.filter (fun c =>
        match c.adjudicatarios with
        | some (JVal.l xs) => strIn (trimStr s) (joinSpace xs)
        | _ => false) := by
  have hsne : (s == "") = false := by simpa using hne
  simp only [filter_contracts, hsne, Bool.false_eq_true, if_false]
  apply List.filter_congr
  intro c _
  cases hadj : c.adjudicatarios with
  | none => simp [asList, hadj, joinSpace, strIn_empty _ htr]
  | some jv =>
    cases jv with
    | s v => simp [asList, hadj, joinSpace, strIn_empty _ htr]
    | l xs => simp [asList, hadj]

/-- Witness for C5 (amended) at a concrete list holding one record
without the field and one whose joined contractor list contains the
NIF. -/
theorem c5_witness :
    filter_contracts [annOnlyRecord, { adjudicatarios := some (JVal.l ["X 503069841 Lda"]) }]
        { fornecedor_nif := some "503069841" } =
      ([annOnlyRecord, { adjudicatarios := some (JVal.l ["X 503069841 Lda"]) }] : List Rec).filter
        (fun c =>
          match c.adjudicatarios with
          | some (JVal.l xs) => strIn (trimStr "503069841") (joinSpace xs)
          | _ => false) :=
  c5_supplier_filter_excludes_missing_field _ "503069841" (by decide) (by decide)

/-! ## C4: staleness characterization -/

/-- C4: `should_refresh_cache` (`isStale`) is `true` exactly when no
`cache_metadata` row exists for the year or the stored `last_fetched`
calendar date is strictly earlier than the current calendar date; in
particular it is `true` for every never-synced year and `false` for a
year synced earlier the same calendar day, whatever the time-of-day
difference. -/
theorem c4_staleness_characterization (db : CacheDB) (year : String) (now : Timestamp) :
    (should_refresh_cache db year now = true ↔
      metadata_for db year = none ∨
        ∃ m, metadata_for db year = some m ∧ m.last_fetched.day < now.day) ∧
    (metadata_for db year = none → should_refresh_cache db year now = true) ∧
    (∀ m, metadata_for db year = some m → m.last_fetched.day = now.day →
      should_refresh_cache db year now = false) := by
  unfold should_refresh_cache
  cases hm : metadata_for db year with
  | none => simp
  | some m =>
    refine ⟨by simp, by simp, ?_⟩
    intro m' hm' hday
    have hmm : m' = m := (Option.some.inj hm').symm
    subst hmm
    simp [hday]

/-- Witness for C4 at concrete inputs: a year synced at `tsEarly` is
not stale at `tsLate` the same day, and a never-synced year is stale. -/
theorem c4_witness :
    should_refresh_cache (store_contracts [contract2024] "2024" tsEarly emptyDB) "2024" tsLate = false ∧
    should_refresh_cache emptyDB "2024" tsLate = true := by
  constructor
  · exact (c4_staleness_characterization
      (store_contracts [contract2024] "2024" tsEarly emptyDB) "2024" tsLate).2.2
      ⟨"2024", tsEarly, 1⟩ (by decide) (by decide)
  · exact (c4_staleness_characterization emptyDB "2024" tsLate).2.1 (by decide)

/-! ## C8: saved-search save/delete semantics -/

/-- C8: `save_search` on an existing name returns `False` and leaves
the database (hence the stored filters for that name) unchanged;
`delete_search` of a missing name returns `False` and changes nothing;
`delete_search` returns `True` exactly when a row was removed. -/
theorem c8_saved_search_uniqueness_and_delete (db : CacheDB) (name : String)
    (f1 f2 : Filters) (t1 t2 : Timestamp) :
    ((db.saved_searches.any (fun s => s.name == name)) = true →
      save_search name f2 t2 db = (false, db)) ∧
    (((save_search name f1 t1 db).2.saved_searches.any (fun s => s.name == name)) = true) ∧
    (save_search name f2 t2 (save_search name f1 t1 db).2 = (false, (save_search name f1 t1 db).2)) ∧
    ((db.saved_searches.any (fun s => s.name == name)) = false →
      delete_search name db = (false, db)) ∧
    ((delete_search name db).1 = true ↔ ∃ s ∈ db.saved_searches, s.name = name) := by
  have hmem : ((save_search name f1 t1 db).2.saved_searches.any (fun s => s.name == name)) = true := by
    by_cases h : db.saved_searches.any (fun s => s.name == name) = true
    · unfold save_search
      rw [h]
      simpa using h
    · rw [Bool.not_eq_true] at h
      unfold save_search
      rw [h]
      simp [List.any_append]
  refine ⟨?_, hmem, ?_, ?_, ?_⟩
  · intro h
    unfold save_search
    rw [h]
    simp
  · generalize hdb2 : (save_search name f1 t1 db).2 = db2 at hmem
    unfold save_search
    rw [hmem]
    simp
  · intro h
    have hall : ∀ s ∈ db.saved_searches, s.name ≠ name := by
      intro s hs
      have := List.any_eq_false.mp h s hs
      simpa using this
    have hfil : db.saved_searches.filter (fun s => s.name != name) = db.saved_searches := by
      apply List.filter_eq_self.mpr
      intro s hs
      simpa using hall s hs
    simp [delete_search, hfil]
  · constructor
    · intro h
      by_contra hno
      push_neg at hno
      have hfil : db.saved_searches.filter (fun s => s.name != name) = db.saved_searches := by
        apply List.filter_eq_self.mpr
        intro s hs
        simpa using hno s hs
      simp [delete_search, hfil] at h
    · intro ⟨s, hs, hname⟩
      have hlt : (db.saved_searches.filter (fun s => s.name != name)).length <
          db.saved_searches.length := by
        apply List.length_filter_lt_length_iff_exists.mpr
        exact ⟨s, hs, by simp [hname]⟩
      simp [delete_search, hlt]

/-- Witness for C8: saving `A` twice, the second save fails and the
original filters survive; deleting a missing name reports `False`. -/
theorem c8_witness :
    (save_search "A" { keyword := some "k2" } tsLate
        (save_search "A" { keyword := some "k1" } tsEarly emptyDB).2 =
      (false, (save_search "A" { keyword := some "k1" } tsEarly emptyDB).2)) ∧
    delete_search "B" emptyDB = (false, emptyDB) ∧
    ((delete_search "A" (save_search "A" { keyword := some "k1" } tsEarly emptyDB).2).1 = true) := by
  refine ⟨(c8_saved_search_uniqueness_and_delete emptyDB "A"
      { keyword := some "k1" } { keyword := some "k2" } tsEarly tsLate).2.2.1, ?_, ?_⟩
  · exact (c8_saved_search_uniqueness_and_delete emptyDB "B"
      { keyword := some "k1" } { keyword := some "k2" } tsEarly tsLate).2.2.2.1 (by decide)
  · exact ((c8_saved_search_uniqueness_and_delete
      (save_search "A" { keyword := some "k1" } tsEarly emptyDB).2 "A"
      { keyword := some "k1" } { keyword := some "k2" } tsEarly tsLate).2.2.2.2).mpr
      ⟨⟨"A", { keyword := some "k1" }, tsEarly, none⟩, by decide, rfl⟩

/-! ## Characterizations of syncing into an empty cache and re-syncing -/

lemma contracts_fold_build (cs : List Rec) (t : Timestamp)
    (hnd : (cs.map (fun c => c.idContrato)).Nodup) :
    cs.foldl (fun tb c => upsertContractRow (mkContractRow c t) tb) [] =
      cs.map (fun c => mkContractRow c t) := by
  have h := foldBuild (fun r : ContractRow => r.id_contrato) (fun c => mkContractRow c t) cs []
    hnd (by intro r hr; cases hr)
  simpa [upsertContractRow] using h

lemma contracts_fold_replay (cs : List Rec) (t1 t2 : Timestamp)
    (hsome : ∀ c ∈ cs, c.idContrato.isSome)
    (hnd : (cs.map (fun c => c.idContrato)).Nodup) :
    cs.foldl (fun tb c => upsertContractRow (mkContractRow c t2) tb)
        (cs.map (fun c => mkContractRow c t1)) =
      cs.map (fun c => mkContractRow c t2) := by
  have h := foldReplay (fun r : ContractRow => r.id_contrato)
    (fun c => mkContractRow c t1) (fun c => mkContractRow c t2) (fun _ => rfl) cs []
    hsome hnd (by intro r hr; cases hr)
  simpa [upsertContractRow] using h

lemma announcements_fold_build (ans : List Rec) (t : Timestamp)
    (hnd : (ans.map (fun a => a.nAnuncio)).Nodup) :
    ans.foldl (fun tb a => upsertAnnouncementRow (mkAnnouncementRow a t) tb) [] =
      ans.map (fun a => mkAnnouncementRow a t) := by
  have h := foldBuild (fun r : AnnouncementRow => r.n_anuncio)
    (fun a => mkAnnouncementRow a t) ans [] hnd (by intro r hr; cases hr)
  simpa [upsertAnnouncementRow] using h

lemma announcements_fold_replay (ans : List Rec) (t1 t2 : Timestamp)
    (hsome : ∀ a ∈ ans, a.nAnuncio.isSome)
    (hnd : (ans.map (fun a => a.nAnuncio)).Nodup) :
    ans.foldl (fun tb a => upsertAnnouncementRow (mkAnnouncementRow a t2) tb)
        (ans.map (fun a => mkAnnouncementRow a t1)) =
      ans.map (fun a => mkAnnouncementRow a t2) := by
  have h := foldReplay (fun r : AnnouncementRow => r.n_anuncio)
    (fun a => mkAnnouncementRow a t1) (fun a => mkAnnouncementRow a t2) (fun _ => rfl) ans []
    hsome hnd (by intro r hr; cases hr)
  simpa [upsertAnnouncementRow] using h

lemma store_contracts_empty (cs : List Rec) (year : String) (now : Timestamp)
    (hnd : (cs.map (fun c => c.idContrato)).Nodup) :
    store_contracts cs year now emptyDB =
      ⟨cs.map (fun c => mkContractRow c now), [], [⟨year, now, cs.length⟩], []⟩ := by
  unfold store_contracts emptyDB
  rw [contracts_fold_build cs now hnd]
  rfl

lemma sync_year_fresh (cs : List Rec) (ar : AnnResult) (year : String) (t : Timestamp)
    (hCnd : (cs.map (fun c => c.idContrato)).Nodup)
    (hAnd : ((normalizeAnns ar).map (fun a => a.nAnuncio)).Nodup) :
    sync_year (.ok cs) (.ok ar) year true t emptyDB =
      ⟨cs.map (fun c => mkContractRow c t),
       (normalizeAnns ar).map (fun a => mkAnnouncementRow a t),
       [⟨year, t, cs.length⟩], []⟩ := by
  have hsync : sync_year (.ok cs) (.ok ar) year true t emptyDB =
      store_announcements (normalizeAnns ar) t (store_contracts cs year t emptyDB) := by
    simp [sync_year]
  rw [hsync, store_contracts_empty cs year t hCnd]
  unfold store_announcements
  rw [announcements_fold_build (normalizeAnns ar) t hAnd]

lemma sync_year_replay (cs : List Rec) (ar : AnnResult) (year : String) (t1 t2 : Timestamp)
    (hCsome : ∀ c ∈ cs, c.idContrato.isSome)
    (hCnd : (cs.map (fun c => c.idContrato)).Nodup)
    (hAsome : ∀ a ∈ normalizeAnns ar, a.nAnuncio.isSome)
    (hAnd : ((normalizeAnns ar).map (fun a => a.nAnuncio)).Nodup) :
    sync_year (.ok cs) (.ok ar) year true t2
        ⟨cs.map (fun c => mkContractRow c t1),
         (normalizeAnns ar).map (fun a => mkAnnouncementRow a t1),
         [⟨year, t1, cs.length⟩], []⟩ =
      ⟨cs.map (fun c => mkContractRow c t2),
       (normalizeAnns ar).map (fun a => mkAnnouncementRow a t2),
       [⟨year, t2, cs.length⟩], []⟩ := by
  have hsync : ∀ db, sync_year (.ok cs) (.ok ar) year true t2 db =
      store_announcements (normalizeAnns ar) t2 (store_contracts cs year t2 db) := by
    intro db
    simp [sync_year]
  rw [hsync]
  unfold store_contracts
  rw [contracts_fold_replay cs t1 t2 hCsome hCnd]
  have hmeta : upsertMetaRow ⟨year, t2, cs.length⟩ [⟨year, t1, cs.length⟩] =
      [⟨year, t2, cs.length⟩] := by
    rw [upsertMetaRow_eq_map _ _ (by simp)]
    simp
  simp only [hmeta]
  unfold store_announcements
  rw [announcements_fold_replay (normalizeAnns ar) t1 t2 hAsome hAnd]

/-! ## C7: syncing the same data twice -/

/-- C7 (counterexample): syncing the same year twice with identical
remote data but at two different times leaves the contracts table
changed — the re-upserted rows carry the second sync's `last_updated`
timestamp — even though the row count and every column other than
`last_updated` are unchanged. -/
theorem c7_counterexample :
    (sync_year (.ok [contract2024]) (.ok AnnResult.nothing) "2024" true tsNextDay
        (sync_year (.ok [contract2024]) (.ok AnnResult.nothing) "2024" true tsEarly emptyDB)).contracts ≠
      (sync_year (.ok [contract2024]) (.ok AnnResult.nothing) "2024" true tsEarly emptyDB).contracts ∧
    (sync_year (.ok [contract2024]) (.ok AnnResult.nothing) "2024" true tsNextDay
        (sync_year (.ok [contract2024]) (.ok AnnResult.nothing) "2024" true tsEarly emptyDB)).contracts.length =
      (sync_year (.ok [contract2024]) (.ok AnnResult.nothing) "2024" true tsEarly emptyDB).contracts.length ∧
    (sync_year (.ok [contract2024]) (.ok AnnResult.nothing) "2024" true tsNextDay
        (sync_year (.ok [contract2024]) (.ok AnnResult.nothing) "2024" true tsEarly emptyDB)).contracts.map contractContent =
      ((sync_year (.ok [contract2024]) (.ok AnnResult.nothing) "2024" true tsEarly emptyDB).contracts.map contractContent) := by
  decide

/-- C7 (amended): syncing the same year twice (forced) with identical
remote data whose external ids are present and pairwise distinct leaves
the contracts and announcements tables unchanged in row count and in
every column except `last_updated`, which is rewritten to the second
sync's timestamp; with identical timestamps the whole database is
literally unchanged. -/
theorem c7_sync_twice_idempotent_up_to_timestamps (cs : List Rec) (ar : AnnResult)
    (year : String) (t1 t2 : Timestamp)
    (hCsome : ∀ c ∈ cs, c.idContrato.isSome)
    (hCnd : (cs.map (fun c => c.idContrato)).Nodup)
    (hAsome : ∀ a ∈ normalizeAnns ar, a.nAnuncio.isSome)
    (hAnd : ((normalizeAnns ar).map (fun a => a.nAnuncio)).Nodup) :
    (sync_year (.ok cs) (.ok ar) year true t2
        (sync_year (.ok cs) (.ok ar) year true t1 emptyDB)).contracts.length =
      (sync_year (.ok cs) (.ok ar) year true t1 emptyDB).contracts.length ∧
    (sync_year (.ok cs) (.ok ar) year true t2
        (sync_year (.ok cs) (.ok ar) year true t1 emptyDB)).announcements.length =
      (sync_year (.ok cs) (.ok ar) year true t1 emptyDB).announcements.length ∧
    (sync_year (.ok cs) (.ok ar) year true t2
        (sync_year (.ok cs) (.ok ar) year true t1 emptyDB)).contracts.map contractContent =
      (sync_year (.ok cs) (.ok ar) year true t1 emptyDB).contracts.map contractContent ∧
    (sync_year (.ok cs) (.ok ar) year true t2
        (sync_year (.ok cs) (.ok ar) year true t1 emptyDB)).announcements.map announcementContent =
      (sync_year (.ok cs) (.ok ar) year true t1 emptyDB).announcements.map announcementContent ∧
    (t1 = t2 →
      sync_year (.ok cs) (.ok ar) year true t2
          (sync_year (.ok cs) (.ok ar) year true t1 emptyDB) =
        sync_year (.ok cs) (.ok ar) year true t1 emptyDB) := by
  have h1 := sync_year_fresh cs ar year t1 hCnd hAnd
  have h2 : sync_year (.ok cs) (.ok ar) year true t2
      (sync_year (.ok cs) (.ok ar) year true t1 emptyDB) =
      ⟨cs.map (fun c => mkContractRow c t2),
       (normalizeAnns ar).map (fun a => mkAnnouncementRow a t2),
       [⟨year, t2, cs.length⟩], []⟩ := by
    rw [h1]
    exact sync_year_replay cs ar year t1 t2 hCsome hCnd hAsome hAnd
  refine ⟨?_, ?_, ?_, ?_, ?_⟩
  · rw [h2, h1]
    simp
  · rw [h2, h1]
    simp
  · rw [h2, h1]
    simp only [List.map_map]
    rfl
  · rw [h2, h1]
    simp only [List.map_map]
    rfl
  · intro heq
    subst heq
    rw [h2, h1]

/-- Witness for C7 (amended) at one concrete contract and an empty
announcement fetch. -/
theorem c7_witness :
    (sync_year (.ok [contract2024]) (.ok AnnResult.nothing) "2024" true tsNextDay
        (sync_year (.ok [contract2024]) (.ok AnnResult.nothing) "2024" true tsEarly emptyDB)).contracts.length =
      (sync_year (.ok [contract2024]) (.ok AnnResult.nothing) "2024" true tsEarly emptyDB).contracts.length ∧
    (sync_year (.ok [contract2024]) (.ok AnnResult.nothing) "2024" true tsNextDay
        (sync_year (.ok [contract2024]) (.ok AnnResult.nothing) "2024" true tsEarly emptyDB)).announcements.length =
      (sync_year (.ok [contract2024]) (.ok AnnResult.nothing) "2024" true tsEarly emptyDB).announcements.length ∧
    (sync_year (.ok [contract2024]) (.ok AnnResult.nothing) "2024" true tsNextDay
        (sync_year (.ok [contract2024]) (.ok AnnResult.nothing) "2024" true tsEarly emptyDB)).contracts.map contractContent =
      (sync_year (.ok [contract2024]) (.ok AnnResult.nothing) "2024" true tsEarly emptyDB).contracts.map contractContent ∧
    (sync_year (.ok [contract2024]) (.ok AnnResult.nothing) "2024" true tsNextDay
        (sync_year (.ok [contract2024]) (.ok AnnResult.nothing) "2024" true tsEarly emptyDB)).announcements.map announcementContent =
      (sync_year (.ok [contract2024]) (.ok AnnResult.nothing) "2024" true tsEarly emptyDB).announcements.map announcementContent ∧
    (tsEarly = tsNextDay →
      sync_year (.ok [contract2024]) (.ok AnnResult.nothing) "2024" true tsNextDay
          (sync_year (.ok [contract2024]) (.ok AnnResult.nothing) "2024" true tsEarly emptyDB) =
        sync_year (.ok [contract2024]) (.ok AnnResult.nothing) "2024" true tsEarly emptyDB) :=
  c7_sync_twice_idempotent_up_to_timestamps [contract2024] AnnResult.nothing "2024"
    tsEarly tsNextDay (by decide) (by decide) (by decide) (by decide)

/-! ## C9: store-then-retrieve round trip -/

lemma mkContractRow_data_publicacao (x : Rec) (now : Timestamp) :
    (mkContractRow x now).data_publicacao = x.dataPublicacao := rfl

lemma mkContractRow_raw_data (x : Rec) (now : Timestamp) :
    (mkContractRow x now).raw_data = x := rfl

lemma filter_map_rows (cs : List Rec) (now : Timestamp) (d : String) :
    ((cs.map (fun x => mkContractRow x now)).filter
        (fun r => r.data_publicacao == some d)).map (fun r => r.raw_data) =
      cs.filter (fun x => x.dataPublicacao == some d) := by
  induction cs with
  | nil => rfl
  | cons x xs ih =>
    simp only [List.map_cons, List.filter_cons, mkContractRow_data_publicacao]
    by_cases hx : (x.dataPublicacao == some d) = true
    · simp [hx, ih, mkContractRow_raw_data]
    · rw [Bool.not_eq_true] at hx
      simp [hx, ih]

lemma query_over_map (cs : List Rec) (now : Timestamp) (d : String)
    (anns : List AnnouncementRow) (meta : List MetaRow) (ss : List SavedSearch) :
    query_contracts_by_date d ⟨cs.map (fun x => mkContractRow x now), anns, meta, ss⟩ =
      cs.filter (fun x => x.dataPublicacao == some d) := by
  unfold query_contracts_by_date
  exact filter_map_rows cs now d

/-- C9: every record ingested by a year sync into an empty cache, with
present and pairwise-distinct external ids, is returned deep-equal by
`get_contracts_by_date` queried with its exact publication-date string
(and everything returned is one of the ingested records bearing that
date). -/
theorem c9_store_retrieve_round_trip (cs : List Rec) (year d : String) (now : Timestamp)
    (c : Rec) (cF : Except String (List Rec)) (aF : Except String AnnResult)
    (hnd : (cs.map (fun x => x.idContrato)).Nodup)
    (hmem : c ∈ cs) (hdate : c.dataPublicacao = some d)
    (hyear : (pySplit '/' d).getD 2 "" = year) :
    c ∈ get_contracts_by_date cF aF d now (store_contracts cs year now emptyDB) ∧
    ∀ r ∈ get_contracts_by_date cF aF d now (store_contracts cs year now emptyDB),
      r ∈ cs ∧ r.dataPublicacao = some d := by
  rw [store_contracts_empty cs year now hnd]
  have hstale : should_refresh_cache
      ⟨cs.map (fun x => mkContractRow x now), [], [⟨year, now, cs.length⟩], []⟩ year now = false := by
    unfold should_refresh_cache metadata_for
    simp
  simp only [get_contracts_by_date, hyear, hstale, Bool.false_eq_true, if_false]
  rw [query_over_map]
  constructor
  · exact List.mem_filter.mpr ⟨hmem, by simp [hdate]⟩
  · intro r hr
    have h := List.mem_filter.mp hr
    exact ⟨h.1, by simpa using h.2⟩

/-- Witness for C9 at a two-contract sync and a concrete date query. -/
theorem c9_witness :
    contract2024 ∈ get_contracts_by_date (.error "e") (.error "e") "30/12/2024" tsEarly
        (store_contracts [contract2024, contract2025] "2024" tsEarly emptyDB) ∧
    ∀ r ∈ get_contracts_by_date (.error "e") (.error "e") "30/12/2024" tsEarly
        (store_contracts [contract2024, contract2025] "2024" tsEarly emptyDB),
      r ∈ [contract2024, contract2025] ∧ r.dataPublicacao = some "30/12/2024" :=
  c9_store_retrieve_round_trip [contract2024, contract2025] "2024" "30/12/2024" tsEarly
    contract2024 (.error "e") (.error "e") (by decide) (by decide) (by decide) (by decide)

/-! ## C6: scalar list-fields are coerced to the empty list, not a singleton -/

lemma length_filter_pair {α β : Type} (p : α → Bool) (q : β → Bool) (x : α) (y : β)
    (h : p x = q y) : (List.filter p [x]).length = (List.filter q [y]).length := by
  cases hp : p x with
  | true =>
    have hq : q y = true := h ▸ hp
    simp [List.filter_cons, hp, hq]
  | false =>
    have hq : q y = false := h ▸ hp
    simp [List.filter_cons, hp, hq]

/-- C6 (counterexample): under the keyword filter `informatica`, a
record whose `cpv` arrives as the scalar `"informatica"` is excluded,
while the same record with the singleton list `["informatica"]` is
kept — the scalar is not treated as a one-element list. -/
theorem c6_counterexample :
    filter_contracts [{ cpv := some (JVal.s "informatica") }] { keyword := some "informatica" } = [] ∧
    filter_contracts [{ cpv := some (JVal.l ["informatica"]) }] { keyword := some "informatica" } =
      [{ cpv := some (JVal.l ["informatica"]) }] := by decide

/-- C6 (amended): in the keyword and supplier filter stages a scalar
value for `cpv`, `CPVs` or `adjudicatarios` is treated as the empty
list — the record's keep/exclude decision equals the decision for the
same record with those fields set to `[]`, not to singleton lists (and
the location / CPV-code stages, here switched off, treat scalars
differently again: a truthy scalar `localExecucao` is excluded, a
scalar `cpv` string is iterated character by character). -/
theorem c6_scalar_treated_as_empty_list (c : Rec) (f : Filters) (u v w : String)
    (hloc : f.location = none) (hcpv : f.cpv_codes = none) :
    (filter_contracts [{ c with
        cpv := some (JVal.s u),
        CPVs := some (JVal.s v),
        adjudicatarios := some (JVal.s w) }] f).length =
    (filter_contracts [{ c with
        cpv := some (JVal.l []),
        CPVs := some (JVal.l []),
        adjudicatarios := some (JVal.l []) }] f).length := by
  rcases f with ⟨kw, nif, loc, cpvc⟩
  have hl : loc = none := by simpa using hloc
  have hc : cpvc = none := by simpa using hcpv
  subst hl
  subst hc
  rcases kw with _ | s <;> rcases nif with _ | n
  · simp [filter_contracts]
  · by_cases hn : (n == "") = true
    · simp [filter_contracts, hn]
    · rw [Bool.not_eq_true] at hn
      simp only [filter_contracts, hn, Bool.false_eq_true, if_false]
      exact length_filter_pair _ _ _ _ rfl
  · by_cases hs : (s == "") = true
    · simp [filter_contracts, hs]
    · rw [Bool.not_eq_true] at hs
      simp only [filter_contracts, hs, Bool.false_eq_true, if_false]
      exact length_filter_pair _ _ _ _ rfl
  · by_cases hs : (s == "") = true <;> by_cases hn : (n == "") = true
    · simp [filter_contracts, hs, hn]
    · rw [Bool.not_eq_true] at hn
      simp only [filter_contracts, hs, hn, if_true, Bool.false_eq_true, if_false]
      exact length_filter_pair _ _ _ _ rfl
    · rw [Bool.not_eq_true] at hs
      simp only [filter_contracts, hs, hn, if_true, Bool.false_eq_true, if_false]
      exact length_filter_pair _ _ _ _ rfl
    · rw [Bool.not_eq_true] at hs
      rw [Bool.not_eq_true] at hn
      simp only [filter_contracts, hs, hn, Bool.false_eq_true, if_false]
      rw [List.filter_filter, List.filter_filter]
      exact length_filter_pair _ _ _ _ rfl

/-- Witness for C6 (amended) at concrete scalar values and a concrete
keyword filter. -/
theorem c6_witness :
    (filter_contracts [{ annOnlyRecord with
        cpv := some (JVal.s "45000000"),
        CPVs := some (JVal.s "45"),
        adjudicatarios := some (JVal.s "x") }]
        { keyword := some "obras" }).length =
    (filter_contracts [{ annOnlyRecord with
        cpv := some (JVal.l []),
        CPVs := some (JVal.l []),
        adjudicatarios := some (JVal.l []) }]
        { keyword := some "obras" }).length :=
  c6_scalar_treated_as_empty_list annOnlyRecord { keyword := some "obras" } "45000000" "45" "x" rfl rfl

/-! ## C2: at-most-once deal creation through the ledger -/

lemma is_processed_mark (l : List LedgerEntry) (n m : String) (d sn : Option String) :
    is_announcement_processed (mark_announcement_processed l n d sn) m =
      (is_announcement_processed l m || (n == m)) := by
  simp [is_announcement_processed, mark_announcement_processed, List.any_append]

lemma process_skip (cd : String → Option String) (crd : Rec → Option String) (sn : String)
    (s : AutoState) (a : Rec)
    (h : is_announcement_processed s.ledger (a.nAnuncio.getD "unknown") = true) :
    process_announcement cd crd sn s a = s := by
  unfold process_announcement
  rw [if_pos h]

lemma process_inv (cd : String → Option String) (crd : Rec → Option String) (sn id : String)
    (s : AutoState) (a : Rec)
    (h1 : s.createCalls.count id ≤ 1)
    (h2 : 1 ≤ s.createCalls.count id → is_announcement_processed s.ledger id = true) :
    (process_announcement cd crd sn s a).createCalls.count id ≤ 1 ∧
      (1 ≤ (process_announcement cd crd sn s a).createCalls.count id →
        is_announcement_processed (process_announcement cd crd sn s a).ledger id = true) := by
  by_cases hp : is_announcement_processed s.ledger (a.nAnuncio.getD "unknown") = true
  · rw [process_skip cd crd sn s a hp]
    exact ⟨h1, h2⟩
  · rw [Bool.not_eq_true] at hp
    have hcount0 : is_announcement_processed s.ledger id = false →
        s.createCalls.count id = 0 := by
      intro hf
      by_contra hnz
      have hone : 1 ≤ s.createCalls.count id := Nat.one_le_iff_ne_zero.mpr hnz
      rw [h2 hone] at hf
      simp at hf
    unfold process_announcement
    rw [if_neg (by simp [hp])]
    cases hcd : cd (a.nAnuncio.getD "unknown") with
    | some did =>
      refine ⟨h1, ?_⟩
      intro hcnt
      simp only [is_processed_mark]
      rw [h2 hcnt]
      simp
    | none =>
      by_cases hn : (a.nAnuncio.getD "unknown") = id
      · have hzero : s.createCalls.count id = 0 := by
          apply hcount0
          rw [← hn]
          exact hp
        cases hcr : crd a with
        | some did =>
          constructor
          · simp [List.count_append, hzero, hn]
          · intro _
            simp only [is_processed_mark]
            simp [hn]
        | none =>
          constructor
          · simp [List.count_append, hzero, hn]
          · intro _
            simp only [is_processed_mark]
            simp [hn]
      · cases hcr : crd a with
        | some did =>
          constructor
          · simpa [List.count_append, List.count_singleton, hn] using h1
          · intro hcnt
            simp only [is_processed_mark]
            have : 1 ≤ s.createCalls.count id := by
              simpa [List.count_append, List.count_singleton, hn] using hcnt
            rw [h2 this]
            simp
        | none =>
          constructor
          · simpa [List.count_append, List.count_singleton, hn] using h1
          · intro hcnt
            simp only [is_processed_mark]
            have : 1 ≤ s.createCalls.count id := by
              simpa [List.count_append, List.count_singleton, hn] using hcnt
            rw [h2 this]
            simp

lemma run_inv (cd : String → Option String) (crd : Rec → Option String) (sn id : String) :
    ∀ (items : List Rec) (s : AutoState),
      s.createCalls.count id ≤ 1 →
      (1 ≤ s.createCalls.count id → is_announcement_processed s.ledger id = true) →
      (run_automation cd crd sn items s).createCalls.count id ≤ 1 := by
  intro items
  induction items with
  | nil =>
    intro s h1 _
    simpa [run_automation] using h1
  | cons a items ih =>
    intro s h1 h2
    have h := process_inv cd crd sn id s a h1 h2
    have hrw : run_automation cd crd sn (a :: items) s =
        run_automation cd crd sn items (process_announcement cd crd sn s a) := by
      simp [run_automation]
    rw [hrw]
    exact ih (process_announcement cd crd sn s a) h.1 h.2

/-- C2: across any two automation runs over a shared ledger, the
deal-creation call is issued at most once per announcement number, and
once a ledger entry exists for an item's id the per-item routine
returns the state unchanged — it never calls deal creation for that id
again. -/
theorem c2_deal_creation_at_most_once (cd : String → Option String)
    (crd : Rec → Option String) (sn : String) (L : List LedgerEntry)
    (l1 l2 : List Rec) (id : String) :
    (run_automation cd crd sn l2 (run_automation cd crd sn l1 ⟨L, [], 0, 0⟩)).createCalls.count id ≤ 1 ∧
    (∀ (s : AutoState) (a : Rec),
      is_announcement_processed s.ledger (a.nAnuncio.getD "unknown") = true →
      process_announcement cd crd sn s a = s) := by
  constructor
  · have hruns : run_automation cd crd sn l2 (run_automation cd crd sn l1 ⟨L, [], 0, 0⟩) =
        run_automation cd crd sn (l1 ++ l2) ⟨L, [], 0, 0⟩ := by
      simp [run_automation, List.foldl_append]
    rw [hruns]
    refine run_inv cd crd sn id (l1 ++ l2) ⟨L, [], 0, 0⟩ (by simp) ?_
    intro h
    simp at h
  · intro s a h
    exact process_skip cd crd sn s a h

/-- Witness for C2: two runs over the same announcement issue at most
one creation call, and a state whose ledger holds `A-1` is returned
unchanged. -/
theorem c2_witness :
    (run_automation wCheckDeal wCreateDeal "S" [wAnn]
        (run_automation wCheckDeal wCreateDeal "S" [wAnn] ⟨[], [], 0, 0⟩)).createCalls.count "A-1" ≤ 1 ∧
    process_announcement wCheckDeal wCreateDeal "S" wProcessedState wAnn = wProcessedState :=
  ⟨(c2_deal_creation_at_most_once wCheckDeal wCreateDeal "S" [] [wAnn] [wAnn] "A-1").1,
   (c2_deal_creation_at_most_once wCheckDeal wCreateDeal "S" [] [wAnn] [wAnn] "A-1").2
     wProcessedState wAnn (by decide)⟩

/-! ## C10: blank comma-separated keyword list excludes everything -/

/-- C10: a non-empty keyword filter value all of whose comma-separated
pieces strip to whitespace (such as `","`) makes `filter_contracts`
return the empty list for every record list. -/
theorem c10_blank_keywords_exclude_all (rs : List Rec) (s : String)
    (hne : s ≠ "") (hblank : ∀ kw ∈ pySplit ',' s, trimStr kw = "") :
    filter_contracts rs { keyword := some s } = [] := by
  have hkws : keywordList s = [] := by
    unfold keywordList
    apply List.filterMap_eq_nil_iff.mpr
    intro kw hkw
    simp [hblank kw hkw]
  have hsne : (s == "") = false := by simpa using hne
  simp [filter_contracts, hsne, hkws, keywordMatch]

/-- Witness for C10 at the concrete filter value `","` and a concrete
record. -/
theorem c10_witness :
    filter_contracts [annOnlyRecord] { keyword := some "," } = [] :=
  c10_blank_keywords_exclude_all [annOnlyRecord] "," (by decide) (by decide)

end PortalBase
